import Mathlib

/-!
Verification of the credential-lifecycle core of `app/controllers/web/auth.js`
(registration, forgot-password token issuance, reset-password token
consumption, and the post-login redirect guard).

Modelling conventions:
* Time is `Nat`, measured in minutes; `moment().add(30, 'minutes')` becomes
  `now + 30`.
* An account is the subset of the `Users` document that these flows read or
  write.  `reset_token` is `Option String` (a JS string field that may be
  `null`), `reset_token_expires_at` is `Option Nat` (a `Date` or `null`).
  The code also assigns to a `reset_at` property (auth.js line 308), so it is
  carried as a field too.
* Accounts are keyed by their unique email (the data model declares email
  unique), so `user.save()` is modelled as replacing the first list entry
  with that email.
* External collaborators are parameters: `validEmail` stands for
  `validator.isEmail`, `strong` for the password policy that
  `user.setPassword` enforces (it throws on a weak password), and the fresh
  random token from `randomstring.token()` is passed in as `freshToken`.
* JS truthiness: a `Date` field is truthy iff non-null; a string field is
  truthy iff non-null and non-empty.
-/

set_option autoImplicit false

namespace KoaLadAuth

/-- The slice of a `Users` document touched by the auth flows. -/
structure Account where
  email : String
  group : String
  password : String
  reset_token : Option String
  reset_token_expires_at : Option Nat
  reset_at : Option Nat
  deriving Repr, DecidableEq

/-- `listHasPre pat s`: `pat` is a leading segment of `s`. -/
def listHasPre : List Char → List Char → Bool
  | [], _ => true
  | _ :: _, [] => false
  | p :: ps, c :: cs => p == c && listHasPre ps cs

/-- `listHasSub pat s`: `pat` occurs as a contiguous run inside `s`. -/
def listHasSub (pat : List Char) : List Char → Bool
  | [] => pat.isEmpty
  | c :: cs => listHasPre pat (c :: cs) || listHasSub pat cs

/-- `str.indexOf(pat) !== -1` on JS strings. -/
def strHasSub (s pat : String) : Bool :=
  listHasSub pat.toList s.toList

/-- `str.indexOf(pat) === 0` on JS strings. -/
def startsWithStr (s pat : String) : Bool :=
  listHasPre pat.toList s.toList

/-- `underscore.string`'s `isBlank`: empty or whitespace-only. -/
def isBlank (x : String) : Bool :=
  x.toList.all fun c => c.isWhitespace

/-- The rejection line logged by the guard (auth.js line 51). -/
def warnMsg (s : String) : String :=
  "Prevented abuse with returnTo hijacking to " ++ s

/--
The open-redirect guard of `registerOrLogin` (auth.js lines 46-53): when the
session's `returnTo` is truthy, contains `"://"` and does not begin with
`config.urls.web` (the trusted origin), it is nulled and a warning is logged.
Returns the surviving `returnTo` together with the emitted warnings.
-/
def resolveReturnTo (returnTo : Option String) (trustedOrigin : String) :
    Option String × List String :=
  match returnTo with
  | none => (none, [])
  | some s =>
    if !(s == "") && strHasSub s "://" && !(startsWithStr s trustedOrigin) then
      (none, [warnMsg s])
    else
      (some s, [])

/-- `Users.count({ group: 'admin' })` over the account population. -/
def adminCount (users : List Account) : Nat :=
  (users.filter fun u => u.group == "admin").length

/-- `Users.findOne({ email })`: first account with the given email. -/
def findByEmail (users : List Account) (email : String) : Option Account :=
  users.find? fun u => u.email == email

/-- `user.save()`: replace the (unique-email) stored document. -/
def updateFirst (users : List Account) (email : String) (f : Account → Account) :
    List Account :=
  match users with
  | [] => []
  | u :: rest =>
    if u.email == email then f u :: rest else u :: updateFirst rest email f

/-- Error/result surface of `register` (auth.js lines 146-207). -/
inductive RegisterResp where
  | invalidEmail
  | invalidPassword
  | duplicateEmail
  | registered
  deriving Repr, DecidableEq

/--
`register` (auth.js lines 146-163): validate email and password, count the
admins, create the account with group `admin` iff the count is zero.
`Users.registerAsync` (passport-local-mongoose) fails on an existing email;
rendering, login and the welcome-email job are elided (no claim covers them).
Returns the new population, the created account when any, and the response.
-/
def register (validEmail : String → Bool) (users : List Account)
    (email password : String) : List Account × Option Account × RegisterResp :=
  if !(validEmail email) then (users, none, .invalidEmail)
  else if isBlank password then (users, none, .invalidPassword)
  else if (findByEmail users email).isSome then (users, none, .duplicateEmail)
  else
    let a : Account :=
      { email := email
        group := if adminCount users == 0 then "admin" else "user"
        password := password
        reset_token := none
        reset_token_expires_at := none
        reset_at := none }
    (users ++ [a], some a, .registered)

/-- Response surface of `forgotPassword` (auth.js lines 209-279). -/
inductive ForgotResp where
  | invalidEmail
  | sent
  | rateLimited (expiresAt : Nat)
  deriving Repr, DecidableEq

/-- Outcome of `forgotPassword`: new population, response, and whether a
reset-password email job was enqueued. -/
structure ForgotOutcome where
  users : List Account
  resp : ForgotResp
  jobEnqueued : Bool
  deriving Repr, DecidableEq

/--
The rate-limit test of auth.js lines 234-238:
`user.reset_token_expires_at && user.reset_token &&
 moment(user.reset_token_expires_at).isBefore(moment().add(30, 'minutes'))`.
A `Date` is truthy iff present; a string is truthy iff present and non-empty;
`isBefore` is a strict comparison.
-/
def rateLimitHit (u : Account) (now : Nat) : Bool :=
  match u.reset_token_expires_at, u.reset_token with
  | some e, some t => !(t == "") && decide (e < now + 30)
  | _, _ => false

/--
`forgotPassword` (auth.js lines 209-279): validate the email, look the
account up; an unknown email still answers `PASSWORD_RESET_SENT` and enqueues
nothing; a hit on the rate-limit test throws `PASSWORD_RESET_LIMIT` carrying
the stored expiry; otherwise store a fresh token expiring at `now + 30`,
answer `PASSWORD_RESET_SENT` and enqueue the reset email.
-/
def forgotPassword (validEmail : String → Bool) (users : List Account)
    (email : String) (now : Nat) (freshToken : String) : ForgotOutcome :=
  if !(validEmail email) then ⟨users, .invalidEmail, false⟩
  else
    match findByEmail users email with
    | none => ⟨users, .sent, false⟩
    | some u =>
      if rateLimitHit u now then
        ⟨users, .rateLimited (u.reset_token_expires_at.getD 0), false⟩
      else
        let u' : Account :=
          { u with
            reset_token_expires_at := some (now + 30)
            reset_token := some freshToken }
        ⟨updateFirst users email fun _ => u', .sent, true⟩

/--
The predicate of the `Users.findOne` query of auth.js lines 294-301: the
email matches, `reset_token` equals the supplied token, and
`reset_token_expires_at: { $gte: new Date() }` (a null expiry matches no
`$gte` query).
-/
def resetMatch (u : Account) (email token : String) (now : Nat) : Bool :=
  u.email == email && u.reset_token == some token &&
    match u.reset_token_expires_at with
    | some e => decide (now ≤ e)
    | none => false

/-- The validate lookup performed by `resetPassword` (auth.js lines 294-301). -/
def findForReset (users : List Account) (email token : String) (now : Nat) :
    Option Account :=
  users.find? fun u => resetMatch u email token now

/-- Response surface of `resetPassword` (auth.js lines 281-327). -/
inductive ResetResp where
  | invalidEmail
  | invalidPassword
  | invalidResetToken
  | invalidResetPassword
  | invalidPasswordStrength
  | ok
  deriving Repr, DecidableEq

/-- Outcome of `resetPassword`: new population, whether `ctx.login` ran, and
the response surfaced to the caller. -/
structure ResetOutcome where
  users : List Account
  loggedIn : Bool
  resp : ResetResp
  deriving Repr, DecidableEq

/--
`resetPassword` (auth.js lines 281-327): validate email, password and token
presence; run the validate lookup; on a miss throw `INVALID_RESET_PASSWORD`.
On a hit, set `reset_token = null` and `reset_at = null` (line 308 touches
`reset_at`, not `reset_token_expires_at`), then `setPassword`; a weak
password throws `INVALID_PASSWORD_STRENGTH`, but the `finally` block always
runs `user.save()` and `ctx.login(user)` before the response settles.
-/
def resetPassword (validEmail strong : String → Bool) (users : List Account)
    (email password token : String) (now : Nat) : ResetOutcome :=
  if !(validEmail email) then ⟨users, false, .invalidEmail⟩
  else if isBlank password then ⟨users, false, .invalidPassword⟩
  else if isBlank token then ⟨users, false, .invalidResetToken⟩
  else
    match findForReset users email token now with
    | none => ⟨users, false, .invalidResetPassword⟩
    | some u =>
      let cleared : Account := { u with reset_token := none, reset_at := none }
      if strong password then
        let updated : Account := { cleared with password := password }
        ⟨updateFirst users email fun _ => updated, true, .ok⟩
      else
        ⟨updateFirst users email fun _ => cleared, true, .invalidPasswordStrength⟩

/-- Every stored expiry of the account lies strictly in the past. -/
def pastExpiry (u : Account) (now : Nat) : Bool :=
  match u.reset_token_expires_at with
  | some e => decide (e < now)
  | none => true

theorem resetMatch_email {u : Account} {email token : String} {now : Nat}
    (h : resetMatch u email token now = true) : (u.email == email) = true := by
  unfold resetMatch at h
  exact (Bool.and_eq_true ..|>.mp (Bool.and_eq_true ..|>.mp h).1).1

theorem resetMatch_token {u : Account} {email token : String} {now : Nat}
    (h : resetMatch u email token now = true) :
    (u.reset_token == some token) = true := by
  unfold resetMatch at h
  exact (Bool.and_eq_true ..|>.mp (Bool.and_eq_true ..|>.mp h).1).2

theorem findForReset_some_match {users : List Account} {email token : String}
    {now : Nat} {u : Account}
    (h : findForReset users email token now = some u) :
    resetMatch u email token now = true := by
  unfold findForReset at h
  have h' := List.find?_some h
  exact h'

theorem findForReset_some_mem {users : List Account} {email token : String}
    {now : Nat} {u : Account}
    (h : findForReset users email token now = some u) : u ∈ users := by
  unfold findForReset at h
  exact List.mem_of_find?_eq_some h

theorem findByEmail_some_beq {users : List Account} {email : String}
    {u : Account} (h : findByEmail users email = some u) :
    (u.email == email) = true := by
  unfold findByEmail at h
  have h' := List.find?_some h
  exact h'

theorem findByEmail_some_mem {users : List Account} {email : String}
    {u : Account} (h : findByEmail users email = some u) : u ∈ users := by
  unfold findByEmail at h
  exact List.mem_of_find?_eq_some h

theorem findForReset_no_email {users : List Account} {email : String}
    (token : String) (now : Nat)
    (h : ∀ u ∈ users, (u.email == email) = false) :
    findForReset users email token now = none := by
  induction users with
  | nil => rfl
  | cons v rest ih =>
    have hv : resetMatch v email token now = false := by
      unfold resetMatch
      simp [h v (List.mem_cons_self ..)]
    simp only [findForReset, List.find?, hv]
    exact ih fun u hu => h u (List.mem_cons_of_mem _ hu)

theorem findByEmail_updateFirst {users : List Account} {email : String}
    {c : Account} (hc : (c.email == email) = true)
    (hmem : ∃ w ∈ users, (w.email == email) = true) :
    findByEmail (updateFirst users email fun _ => c) email = some c := by
  induction users with
  | nil => simp at hmem
  | cons v rest ih =>
    by_cases hv : (v.email == email) = true
    · simp [updateFirst, hv, findByEmail, List.find?, hc]
    · have hvf : (v.email == email) = false := Bool.eq_false_iff.mpr hv
      simp only [updateFirst, hvf, if_false, Bool.false_eq_true]
      simp only [findByEmail, List.find?, hvf]
      apply ih
      obtain ⟨w, hw, hwe⟩ := hmem
      rcases List.mem_cons.mp hw with rfl | hw'
      · exact absurd hwe hv
      · exact ⟨w, hw', hwe⟩

theorem findForReset_updateFirst_none {users : List Account} {email : String}
    (token : String) (now' : Nat) {c : Account} (hc : c.reset_token = none)
    (hnd : (users.map Account.email).Nodup)
    (hmem : ∃ w ∈ users, (w.email == email) = true) :
    findForReset (updateFirst users email fun _ => c) email token now' = none := by
  induction users with
  | nil => simp at hmem
  | cons v rest ih =>
    simp only [List.map_cons, List.nodup_cons] at hnd
    by_cases hv : (v.email == email) = true
    · have hcm : resetMatch c email token now' = false := by
        unfold resetMatch
        simp [hc]
      simp only [updateFirst, hv, if_true, findForReset, List.find?, hcm]
      apply findForReset_no_email
      intro w hw
      apply Bool.eq_false_iff.mpr
      intro hwe
      exact hnd.1 (eq_of_beq hv ▸ eq_of_beq hwe ▸ List.mem_map_of_mem Account.email hw)
    · have hvf : (v.email == email) = false := Bool.eq_false_iff.mpr hv
      have hvm : resetMatch v email token now' = false := by
        unfold resetMatch
        simp [hvf]
      simp only [updateFirst, hvf, Bool.false_eq_true, if_false, findForReset,
        List.find?, hvm]
      apply ih hnd.2
      obtain ⟨w, hw, hwe⟩ := hmem
      rcases List.mem_cons.mp hw with rfl | hw'
      · exact absurd hwe hv
      · exact ⟨w, hw', hwe⟩

/-- C2. Open-redirect guard: a candidate containing `"://"` that does not
begin with the trusted origin is nulled out and a warning carrying the
rejected value is emitted; a candidate without `"://"` is kept as-is; a
candidate beginning with the trusted origin is kept as-is. -/
theorem open_redirect_guard (s trustedOrigin : String) :
    (strHasSub s "://" = true → startsWithStr s trustedOrigin = false →
      resolveReturnTo (some s) trustedOrigin = (none, [warnMsg s])) ∧
    (strHasSub s "://" = false →
      resolveReturnTo (some s) trustedOrigin = (some s, [])) ∧
    (startsWithStr s trustedOrigin = true →
      resolveReturnTo (some s) trustedOrigin = (some s, [])) := by
  refine ⟨fun h1 h2 => ?_, fun h1 => ?_, fun h1 => ?_⟩
  · have hs : (s == "") = false := by
      cases hse : s == "" with
      | false => rfl
      | true =>
        rw [eq_of_beq hse] at h1
        exact absurd h1 (by decide)
    simp [resolveReturnTo, hs, h1, h2]
  · simp [resolveReturnTo, h1]
  · simp [resolveReturnTo, h1]

theorem open_redirect_guard_witness :
    resolveReturnTo (some "https://evil.example/x") "https://app.example"
      = (none, [warnMsg "https://evil.example/x"]) ∧
    resolveReturnTo (some "/dashboard") "https://app.example"
      = (some "/dashboard", []) ∧
    resolveReturnTo (some "https://app.example/x") "https://app.example"
      = (some "https://app.example/x", []) :=
  ⟨(open_redirect_guard "https://evil.example/x" "https://app.example").1
      (by decide) (by decide),
   (open_redirect_guard "/dashboard" "https://app.example").2.1 (by decide),
   (open_redirect_guard "https://app.example/x" "https://app.example").2.2
      (by decide)⟩

/-- C3. First-admin role assignment: on every successful registration the new
account's group is `admin` exactly when the count of existing admin accounts
was zero at the time of the count. -/
theorem first_admin_role (validEmail : String → Bool) (users : List Account)
    (email password : String) (users' : List Account) (a : Account)
    (h : register validEmail users email password
          = (users', some a, RegisterResp.registered)) :
    a.group = "admin" ↔ adminCount users = 0 := by
  unfold register at h
  split at h
  · simp at h
  · split at h
    · simp at h
    · split at h
      · simp at h
      · simp only [Prod.mk.injEq, Option.some.injEq] at h
        obtain ⟨-, ha, -⟩ := h
        subst ha
        by_cases hz : adminCount users = 0 <;> simp [hz]

theorem first_admin_role_witness :
    (⟨"a@x.com", "admin", "pw123", none, none, none⟩ : Account).group = "admin"
      ↔ adminCount [] = 0 :=
  first_admin_role (fun _ => true) [] "a@x.com" "pw123"
    [⟨"a@x.com", "admin", "pw123", none, none, none⟩]
    ⟨"a@x.com", "admin", "pw123", none, none, none⟩ (by decide)

/-- C4. The code contradicts the claim's (and its own comment's) "after the
cooldown has elapsed, issuance succeeds": for an account whose token was
issued at time 10 (expiry 40), a request at time 100 — 60 minutes after the
30-minute cooldown began, and after the token itself expired — still returns
the rate-limit error, because `isBefore(now + 30)` holds for every past
issuance. -/
theorem forgot_after_cooldown_still_rate_limited :
    (forgotPassword (fun _ => true)
        [⟨"a@x.com", "user", "old", some "T", some 40, none⟩]
        "a@x.com" 100 "NEW").resp = ForgotResp.rateLimited 40 ∧
    (forgotPassword (fun _ => true)
        [⟨"a@x.com", "user", "old", some "T", some 40, none⟩]
        "a@x.com" 100 "NEW").jobEnqueued = false := by
  decide

/-- C5 counterexample. At the boundary instant `now = resetTokenExpiresAt`
the validate lookup still succeeds (the query uses `$gte`), contradicting the
claim that it fails whenever `now >= resetTokenExpiresAt`. -/
theorem reset_lookup_boundary_succeeds :
    findForReset [⟨"c@x.com", "user", "old", some "TOK", some 50, none⟩]
      "c@x.com" "TOK" 50
      = some ⟨"c@x.com", "user", "old", some "TOK", some 50, none⟩ := by
  decide

/-- C5 amended. For every account, email, token value and time, in any
population: the validate lookup never returns an account whose stored expiry
is strictly past — a found account always satisfies
`now ≤ reset_token_expires_at`.  Equivalently, whenever
`now > resetTokenExpiresAt` the lookup fails for that account; only at the
boundary `now = resetTokenExpiresAt` does the token still validate. -/
theorem reset_lookup_strictly_expired_fails (users : List Account)
    (email token : String) (now : Nat) (u : Account)
    (h : findForReset users email token now = some u) :
    pastExpiry u now = false := by
  have hm := findForReset_some_match h
  unfold resetMatch at hm
  have h3 := (Bool.and_eq_true ..|>.mp hm).2
  unfold pastExpiry
  cases he : u.reset_token_expires_at with
  | none =>
    rw [he] at h3
    simp at h3
  | some e =>
    rw [he] at h3
    have hle : now ≤ e := of_decide_eq_true h3
    exact decide_eq_false (Nat.not_lt.mpr hle)

theorem reset_lookup_strictly_expired_fails_witness :
    pastExpiry ⟨"e@x.com", "user", "old", some "TE", some 60, none⟩ 30
      = false :=
  reset_lookup_strictly_expired_fails
    [⟨"x@x.com", "user", "old", some "TX", some 5, none⟩,
     ⟨"e@x.com", "user", "old", some "TE", some 60, none⟩]
    "e@x.com" "TE" 30
    ⟨"e@x.com", "user", "old", some "TE", some 60, none⟩ (by decide)

/-- C6. A successful reset-password clears `reset_token` but assigns
`reset_at = null` instead of clearing `reset_token_expires_at`, so the
account is left with the token cleared while the expiry stays set — the
paired-fields invariant is violated by the consume operation. -/
theorem reset_leaves_expiry_set :
    (resetPassword (fun _ => true) (fun _ => true)
        [⟨"b@x.com", "user", "old", some "T6", some 100, none⟩]
        "b@x.com" "npw" "T6" 50).resp = ResetResp.ok ∧
    (resetPassword (fun _ => true) (fun _ => true)
        [⟨"b@x.com", "user", "old", some "T6", some 100, none⟩]
        "b@x.com" "npw" "T6" 50).users
      = [⟨"b@x.com", "user", "npw", none, some 100, none⟩] := by
  decide

/-- C7. The forgot-password response is not success-shaped for an account
whose token's cooldown has long elapsed (issued at time 10, request at time
100): such an account gets the rate-limit error, so the claimed "sole
exception: still within its cooldown" is wrong; the unknown-email half
(success-shaped response, no job enqueued) does hold. -/
theorem forgot_response_differs_outside_cooldown :
    (forgotPassword (fun _ => true)
        [⟨"d@x.com", "user", "old", some "T7", some 40, none⟩]
        "d@x.com" 100 "NEW").resp = ForgotResp.rateLimited 40 ∧
    (forgotPassword (fun _ => true)
        [⟨"d@x.com", "user", "old", some "T7", some 40, none⟩]
        "ghost@x.com" 100 "NEW").resp = ForgotResp.sent ∧
    (forgotPassword (fun _ => true)
        [⟨"d@x.com", "user", "old", some "T7", some 40, none⟩]
        "ghost@x.com" 100 "NEW").jobEnqueued = false := by
  decide

/-- C1. Token single-use: once reset-password's consume succeeds on an
account (the validate lookup found it), any subsequent validate lookup with
the same email and the same token value finds no account — `reset_token` has
been cleared — whatever the later time and whether the password set was
strong or weak.  Emails are unique per the data model. -/
theorem token_single_use (validEmail strong : String → Bool)
    (users : List Account) (email password token : String) (now now' : Nat)
    (u : Account) (hnd : (users.map Account.email).Nodup)
    (h1 : validEmail email = true) (h2 : isBlank password = false)
    (h3 : isBlank token = false)
    (h4 : findForReset users email token now = some u) :
    findForReset
      (resetPassword validEmail strong users email password token now).users
      email token now' = none := by
  have hm : resetMatch u email token now = true := findForReset_some_match h4
  have hmem : ∃ w ∈ users, (w.email == email) = true :=
    ⟨u, findForReset_some_mem h4, resetMatch_email hm⟩
  cases hstrong : strong password with
  | true =>
    have husers :
        (resetPassword validEmail strong users email password token now).users
          = updateFirst users email fun _ =>
              { u with reset_token := none, reset_at := none,
                       password := password } := by
      simp [resetPassword, h1, h2, h3, h4, hstrong]
    rw [husers]
    exact findForReset_updateFirst_none token now' rfl hnd hmem
  | false =>
    have husers :
        (resetPassword validEmail strong users email password token now).users
          = updateFirst users email fun _ =>
              { u with reset_token := none, reset_at := none } := by
      simp [resetPassword, h1, h2, h3, h4, hstrong]
    rw [husers]
    exact findForReset_updateFirst_none token now' rfl hnd hmem

theorem token_single_use_witness :
    findForReset (resetPassword (fun _ => true) (fun _ => true)
        [⟨"w@x.com", "user", "old", some "W1", some 60, none⟩]
        "w@x.com" "npw" "W1" 30).users "w@x.com" "W1" 30 = none :=
  token_single_use (fun _ => true) (fun _ => true)
    [⟨"w@x.com", "user", "old", some "W1", some 60, none⟩]
    "w@x.com" "npw" "W1" 30 30
    ⟨"w@x.com", "user", "old", some "W1", some 60, none⟩
    (by decide) (by decide) (by decide) (by decide) (by decide)

/-- C8. Always-login-after-reset: whenever the validate lookup succeeds, the
`finally` block logs the caller in with the account, regardless of whether
the password set succeeds or fails on strength. -/
theorem always_login_after_reset (validEmail strong : String → Bool)
    (users : List Account) (email password token : String) (now : Nat)
    (u : Account) (h1 : validEmail email = true)
    (h2 : isBlank password = false) (h3 : isBlank token = false)
    (h4 : findForReset users email token now = some u) :
    (resetPassword validEmail strong users email password token now).loggedIn
      = true := by
  cases hstrong : strong password <;>
    simp [resetPassword, h1, h2, h3, h4, hstrong]

theorem always_login_after_reset_witness :
    (resetPassword (fun _ => true) (fun _ => false)
        [⟨"f@x.com", "user", "old", some "TF", some 60, none⟩]
        "f@x.com" "weakpw" "TF" 30).loggedIn = true :=
  always_login_after_reset (fun _ => true) (fun _ => false)
    [⟨"f@x.com", "user", "old", some "TF", some 60, none⟩]
    "f@x.com" "weakpw" "TF" 30
    ⟨"f@x.com", "user", "old", some "TF", some 60, none⟩
    (by decide) (by decide) (by decide) (by decide)

/-- C9. Token clearing survives credential failure: when the validate lookup
succeeds but the new password is weak, the `finally` block still persists the
account with `reset_token` cleared, and the caller gets
`INVALID_PASSWORD_STRENGTH`. -/
theorem token_clear_survives_weak_password (validEmail strong : String → Bool)
    (users : List Account) (email password token : String) (now : Nat)
    (u : Account) (h1 : validEmail email = true)
    (h2 : isBlank password = false) (h3 : isBlank token = false)
    (h4 : findForReset users email token now = some u)
    (h5 : strong password = false) :
    (resetPassword validEmail strong users email password token now).resp
        = ResetResp.invalidPasswordStrength ∧
    findByEmail
        (resetPassword validEmail strong users email password token now).users
        email = some { u with reset_token := none, reset_at := none } := by
  have hm : resetMatch u email token now = true := findForReset_some_match h4
  have hmem : ∃ w ∈ users, (w.email == email) = true :=
    ⟨u, findForReset_some_mem h4, resetMatch_email hm⟩
  constructor
  · simp [resetPassword, h1, h2, h3, h4, h5]
  · have husers :
        (resetPassword validEmail strong users email password token now).users
          = updateFirst users email fun _ =>
              { u with reset_token := none, reset_at := none } := by
      simp [resetPassword, h1, h2, h3, h4, h5]
    rw [husers]
    refine findByEmail_updateFirst ?_ hmem
    have hbeq := resetMatch_email hm
    exact hbeq

theorem token_clear_survives_weak_password_witness :
    (resetPassword (fun _ => true) (fun _ => false)
        [⟨"g@x.com", "user", "old", some "TG", some 60, none⟩]
        "g@x.com" "weakpw" "TG" 30).resp
      = ResetResp.invalidPasswordStrength ∧
    findByEmail (resetPassword (fun _ => true) (fun _ => false)
        [⟨"g@x.com", "user", "old", some "TG", some 60, none⟩]
        "g@x.com" "weakpw" "TG" 30).users "g@x.com"
      = some ⟨"g@x.com", "user", "old", none, some 60, none⟩ :=
  token_clear_survives_weak_password (fun _ => true) (fun _ => false)
    [⟨"g@x.com", "user", "old", some "TG", some 60, none⟩]
    "g@x.com" "weakpw" "TG" 30
    ⟨"g@x.com", "user", "old", some "TG", some 60, none⟩
    (by decide) (by decide) (by decide) (by decide) (by decide)

/-- C10. The rate-limit branch needs both reset fields truthy: for an
account whose `reset_token` is null (as a successful reset leaves it),
forgot-password never rate-limits — whatever `reset_token_expires_at` holds —
and instead issues a fresh token expiring at `now + 30`, answering
`PASSWORD_RESET_SENT` and enqueuing the notification. -/
theorem null_token_never_rate_limited (validEmail : String → Bool)
    (users : List Account) (email : String) (now : Nat) (freshToken : String)
    (u : Account) (h1 : validEmail email = true)
    (h2 : findByEmail users email = some u) (h3 : u.reset_token = none) :
    (forgotPassword validEmail users email now freshToken).resp
        = ForgotResp.sent ∧
    (forgotPassword validEmail users email now freshToken).jobEnqueued
        = true ∧
    findByEmail (forgotPassword validEmail users email now freshToken).users
        email
      = some { u with reset_token_expires_at := some (now + 30),
                      reset_token := some freshToken } := by
  have hrl : rateLimitHit u now = false := by
    unfold rateLimitHit
    rw [h3]
    cases u.reset_token_expires_at <;> rfl
  have hue : (u.email == email) = true := findByEmail_some_beq h2
  have hmem : ∃ w ∈ users, (w.email == email) = true :=
    ⟨u, findByEmail_some_mem h2, hue⟩
  refine ⟨?_, ?_, ?_⟩
  · simp [forgotPassword, h1, h2, hrl]
  · simp [forgotPassword, h1, h2, hrl]
  · have husers : (forgotPassword validEmail users email now freshToken).users
        = updateFirst users email fun _ =>
            { u with reset_token_expires_at := some (now + 30),
                     reset_token := some freshToken } := by
      simp [forgotPassword, h1, h2, hrl]
    rw [husers]
    refine findByEmail_updateFirst ?_ hmem
    exact hue

theorem null_token_never_rate_limited_witness :
    (forgotPassword (fun _ => true)
        [⟨"h@x.com", "user", "old", none, some 5, none⟩]
        "h@x.com" 100 "NT").resp = ForgotResp.sent ∧
    (forgotPassword (fun _ => true)
        [⟨"h@x.com", "user", "old", none, some 5, none⟩]
        "h@x.com" 100 "NT").jobEnqueued = true ∧
    findByEmail (forgotPassword (fun _ => true)
        [⟨"h@x.com", "user", "old", none, some 5, none⟩]
        "h@x.com" 100 "NT").users "h@x.com"
      = some ⟨"h@x.com", "user", "old", some "NT", some 130, none⟩ :=
  null_token_never_rate_limited (fun _ => true)
    [⟨"h@x.com", "user", "old", none, some 5, none⟩]
    "h@x.com" 100 "NT"
    ⟨"h@x.com", "user", "old", none, some 5, none⟩
    (by decide) (by decide) (by decide)

end KoaLadAuth
